import Mathlib

set_option maxHeartbeats 1000000

/-! Formal model of the trivy-db storage layer (`pkg/db`) and the composer
vulnerability source (`pkg/vulnsrc/composer`). The underlying bolt store is
modelled as a tree of nested buckets: each bucket holds keyed byte payloads
and named sub-buckets; the open database is the list of root buckets in the
iteration order of the root keyspace cursor. Go byte slices are lists of byte
values, with `none` versus `some []` at API boundaries standing for Go's nil
slice versus a non-nil empty slice. Fallible Go functions return `Except`. -/

/-- Serialized payload bytes (a Go byte slice's contents). -/
abbrev Bytes := List Nat

/-- Association-list lookup: models bolt bucket key lookup and Go map indexing. -/
def alookup {α : Type} (m : List (String × α)) (k : String) : Option α :=
  match m with
  | [] => none
  | (k', v) :: rest => if k' = k then some v else alookup rest k

/-- Insert-or-replace: models bolt `Put` and Go map assignment (replaces the
binding for an existing key, otherwise adds a new one). -/
def upsert {α : Type} (m : List (String × α)) (k : String) (v : α) : List (String × α) :=
  match m with
  | [] => [(k, v)]
  | (k', v') :: rest => if k' = k then (k, v) :: rest else (k', v') :: upsert rest k v

/-- Left-biased choice on options. -/
def optOr {α : Type} : Option α → Option α → Option α
  | some a, _ => some a
  | none, b => b

/-- strings.HasPrefix: `p` is a prefix of `s`. -/
def strStarts (s p : String) : Bool := p.data.isPrefixOf s.data

/-- strings.HasSuffix: `p` is a suffix of `s`. -/
def strEndsWith (s p : String) : Bool := p.data.isSuffixOf s.data

/-- Whether the character sequence `p` occurs inside the second list. -/
def listContainsSeq (p : List Char) : List Char → Bool
  | [] => p.isEmpty
  | c :: rest => p.isPrefixOf (c :: rest) || listContainsSeq p rest

/-- strings.Contains: the substring `p` occurs in `s`. -/
def strContainsSub (s p : String) : Bool := listContainsSeq p.data s.data

/-- strings.TrimSuffix: drop the suffix when present, otherwise return `s` unchanged. -/
def trimSuffix (s suf : String) : String :=
  if strEndsWith s suf then ⟨s.data.take (s.data.length - suf.data.length)⟩ else s

/-- strings.Join with separator ", " (as used on branch version constraints). -/
def joinComma : List String → String
  | [] => ""
  | [s] => s
  | s :: rest => s ++ ", " ++ joinComma rest

/-- A bolt bucket: keyed byte payloads plus named nested sub-buckets. -/
inductive Bucket where
  | mk (entries : List (String × Bytes)) (subs : List (String × Bucket))

/-- The key/value payload entries of a bucket. -/
def Bucket.entries : Bucket → List (String × Bytes)
  | .mk es _ => es

/-- The nested sub-buckets of a bucket. -/
def Bucket.subs : Bucket → List (String × Bucket)
  | .mk _ ss => ss

/-- A freshly created bucket: no entries, no sub-buckets. -/
def emptyBucket : Bucket := .mk [] []

/-- The open bolt database: the top-level (root) buckets keyed by name, listed
in the iteration order of the root keyspace cursor. -/
structure DB where
  roots : List (String × Bucket)

/-- A freshly created store file: no root buckets at all. -/
def emptyDB : DB := ⟨[]⟩

/-- types.DataSource: provenance metadata `{Name, URL}` for one root bucket. -/
structure DataSource where
  Name : String
  URL : String
  deriving DecidableEq

/-- The zero value of types.DataSource ("unknown provenance"). -/
def zeroDataSource : DataSource := ⟨"", ""⟩

/-- db.Value: one bulk-scan result entry, the payload tagged with provenance. -/
structure Value where
  Source : DataSource
  Content : Bytes
  deriving DecidableEq

/-- The nested-descent loop of `Config.get` (`bkt = bkt.Bucket(name)`,
returning nil as soon as a level is missing). -/
def Bucket.getPath (b : Bucket) (names : List String) : Option Bucket :=
  match names with
  | [] => some b
  | n :: rest =>
    match alookup b.subs n with
    | none => none
    | some sub => sub.getPath rest

/-- The nested `CreateBucketIfNotExists` loop of `Config.put`, followed by a
`Put` of the serialized value into the innermost bucket. -/
def Bucket.putPath (b : Bucket) (names : List String) (key : String) (val : Bytes) : Bucket :=
  match names with
  | [] => Bucket.mk (upsert b.entries key val) b.subs
  | n :: rest =>
    let sub := (alookup b.subs n).getD emptyBucket
    Bucket.mk b.entries (upsert b.subs n (sub.putPath rest key val))

/-- db.Config.put: reject an empty bucket-name list; otherwise create the
bucket chain as needed and store the (already serialized) value under `key`.
JSON marshalling of the already-serialized payload is the identity here. -/
def Config.put (db : DB) (bktNames : List String) (key : String) (value : Bytes) :
    Except String DB :=
  match bktNames with
  | [] => .error "empty bucket name"
  | r :: rest =>
    let root := (alookup db.roots r).getD emptyBucket
    .ok { roots := upsert db.roots r (root.putPath rest key value) }

/-- db.Config.get: inside a read-only view, reject an empty bucket-name list;
a missing bucket at any level leaves the result at its nil zero value; when the
chain resolves, `make([]byte, len(dbValue))` + `copy` produce a non-nil
defensive copy (empty when the key is absent or its value empty). -/
def Config.get (db : DB) (bktNames : List String) (key : String) :
    Except String (Option Bytes) :=
  match bktNames with
  | [] => .error "failed to get data from db: empty bucket name"
  | r :: rest =>
    match alookup db.roots r with
    | none => .ok none
    | some root =>
      match root.getPath rest with
      | none => .ok none
      | some bkt => .ok (some ((alookup bkt.entries key).getD []))

/-- Resolution of a full bucket chain from the root: `some` exactly when every
bucket of the chain exists. -/
def resolvePath (db : DB) (names : List String) : Option Bucket :=
  match names with
  | [] => none
  | r :: rest => (alookup db.roots r).bind (fun b => b.getPath rest)

/-- Length-prefixed character encoding of one string (a stand-in for the JSON
encoding of a string field). -/
def encodeStr (s : String) : Bytes := s.data.length :: s.data.map Char.toNat

/-- Decode one length-prefixed string, returning it with the remaining bytes. -/
def decodeStr (bs : Bytes) : Option (String × Bytes) :=
  match bs with
  | [] => none
  | n :: rest =>
    if n ≤ rest.length then some (⟨(rest.take n).map Char.ofNat⟩, rest.drop n) else none

/-- Serialization of a DataSource record (Name then URL). -/
def encodeDataSource (d : DataSource) : Bytes := encodeStr d.Name ++ encodeStr d.URL

/-- Deserialization of a DataSource record; malformed payloads are a
serialization failure. -/
def decodeDataSource (bs : Bytes) : Except String DataSource :=
  match decodeStr bs with
  | none => .error "failed to unmarshal data source"
  | some (name, rest) =>
    match decodeStr rest with
    | none => .error "failed to unmarshal data source"
    | some (url, rest') =>
      if rest'.isEmpty then .ok ⟨name, url⟩ else .error "failed to unmarshal data source"

/-- The reserved root bucket holding per-root-bucket DataSource metadata. -/
def dataSourceBucket : String := "data-source"

/-- Modelled from the spec: the body of `Config.getDataSource` is not under
src/ (only its call site in `Config.forEach` is). Per the spec, DataSource
metadata `{Name, URL}` is "attached to exactly one root bucket, stored under a
reserved key and read back whenever that bucket's contents are bulk-scanned";
"data-source metadata missing or unreadable during a bulk scan" is a
`ProvenanceLookupFailure` error. The lookup fails when the reserved metadata
bucket is missing, when no record exists for the root bucket name, or when the
stored payload does not decode. -/
def Config.getDataSource (db : DB) (bktName : String) : Except String DataSource :=
  match alookup db.roots dataSourceBucket with
  | none => .error "data source bucket is missing"
  | some b =>
    match alookup b.entries bktName with
    | none => .error ("no data source for " ++ bktName)
    | some bs => decodeDataSource bs

/-- The reserved root-bucket-name delimiter that switches `Config.forEach`
into prefix-scan mode. -/
def reservedDelim : String := "::"

/-- The root-resolution step of `Config.forEach`: with the reserved delimiter
in the root spec, a cursor scan collects every top-level bucket name sharing
the prefix; otherwise the literal root name alone. -/
def matchedRoots (db : DB) (rootBucket : String) : List String :=
  if strContainsSub rootBucket reservedDelim then
    (db.roots.filter (fun p => strStarts p.1 rootBucket)).map Prod.fst
  else [rootBucket]

/-- Processing of one matched root inside `Config.forEach`: a missing root
bucket or missing nested path means the root is skipped (`continue`);
otherwise the root's provenance (zero-valued when `getDataSource` fails, the
failure only being logged) and its innermost entries. -/
def scanRoot (db : DB) (nested : List String) (r : String) :
    Option (DataSource × List (String × Bytes)) :=
  match alookup db.roots r with
  | none => none
  | some root =>
    let src :=
      match Config.getDataSource db r with
      | .ok s => s
      | .error _ => zeroDataSource
    match root.getPath nested with
    | none => none
    | some bkt => some (src, bkt.entries)

/-- The inner `bkt.ForEach` of `Config.forEach`: every entry is copied and
written into the shared result map tagged with the root's provenance. -/
def insertEntries (src : DataSource) :
    List (String × Bytes) → List (String × Value) → List (String × Value)
  | [], acc => acc
  | kv :: rest, acc => insertEntries src rest (upsert acc kv.1 ⟨src, kv.2⟩)

/-- The loop of `Config.forEach` over all matched roots, threading the shared
result map. -/
def forEachRoots (db : DB) (nested : List String) :
    List String → List (String × Value) → List (String × Value)
  | [], acc => acc
  | r :: rest, acc =>
    match scanRoot db nested r with
    | none => forEachRoots db nested rest acc
    | some (src, es) => forEachRoots db nested rest (insertEntries src es acc)

/-- db.Config.forEach: reject bucket chains shorter than 2 with a nil map;
otherwise resolve the matched roots and fold their entries into one result
map. The per-entry callback never fails, so the view itself never fails. -/
def Config.forEach (db : DB) (bktNames : List String) :
    Except String (List (String × Value)) :=
  match bktNames with
  | rootBucket :: n₁ :: ns =>
    .ok (forEachRoots db (n₁ :: ns) (matchedRoots db rootBucket) [])
  | _ => .error "bucket must be nested"

/-- db.Config.BatchUpdate: `db.Batch(fn)` commits the new state only when `fn`
succeeds; a failing `fn` rolls the whole transaction back and the error is
wrapped and surfaced. -/
def Config.BatchUpdate (db : DB) (fn : DB → Except String DB) : Except String DB :=
  match fn db with
  | .ok tx => .ok tx
  | .error e => .error ("error in batch update: " ++ e)

/-- The possible outcomes of the `bolt.Open` call inside `Init`: a handle on
the (possibly pre-existing) store, an ordinary error, or the fatal
memory-access fault that `debug.SetPanicOnFault` turns into a panic. -/
inductive OpenOutcome where
  | opened (s : DB)
  | openErr (e : String)
  | fatalFault

/-- The environment `Init` runs against: whether `os.MkdirAll` succeeds, what
the first `bolt.Open` does, whether `os.Remove` on the store file succeeds,
and whether the recovery `bolt.Open` of the recreated file fails. -/
structure InitEnv where
  mkdirOk : Bool
  firstOpen : OpenOutcome
  removeOk : Bool
  reopenErr : Option String

/-- What `Init` leaves behind: the process-wide store handle, whether the
store file was deleted, and the returned error. -/
structure InitResult where
  handle : Option DB
  fileRemoved : Bool
  initErr : Option String

/-- db.Init: make the store directory, then open the store file. A plain open
error is wrapped and returned with no recovery. A fatal fault is recovered in
the deferred handler: the store file is removed (a failing removal becomes
Init's error) and a fresh, empty store is opened in its place, whose outcome
becomes Init's result. -/
def Init (env : InitEnv) : InitResult :=
  if env.mkdirOk = false then ⟨none, false, some "failed to mkdir"⟩
  else
    match env.firstOpen with
    | .opened s => ⟨some s, false, none⟩
    | .openErr e => ⟨none, false, some ("failed to open db: " ++ e)⟩
    | .fatalFault =>
      if env.removeOk = false then ⟨none, false, some "failed to remove db file"⟩
      else
        match env.reopenErr with
        | some e => ⟨none, true, some e⟩
        | none => ⟨some emptyDB, true, none⟩

/-- db.BoltOptions: every configuration field accepted by `Init`. The custom
file-open hook is abstracted as an identifying token. -/
structure BoltOptions where
  Timeout : Nat
  NoGrowSync : Bool
  NoFreelistSync : Bool
  PreLoadFreelist : Bool
  ReadOnly : Bool
  MmapFlags : Int
  InitialMmapSize : Int
  PageSize : Int
  NoSync : Bool
  OpenFile : Nat
  Mlock : Bool
  Enable : Bool
  deriving DecidableEq

/-- bolt.Options: the option set actually understood by the underlying store,
as handed to `bolt.Open`. -/
structure BoltLibOptions where
  Timeout : Nat
  NoGrowSync : Bool
  NoFreelistSync : Bool
  PreLoadFreelist : Bool
  ReadOnly : Bool
  MmapFlags : Int
  InitialMmapSize : Int
  PageSize : Int
  NoSync : Bool
  OpenFile : Nat
  Mlock : Bool
  deriving DecidableEq

/-- The zero value of bolt.Options: what `&bolt.Options{...}` leaves in every
field not explicitly set (bolt.Open applies its defaults for these). -/
def zeroBoltLibOptions : BoltLibOptions :=
  ⟨0, false, false, false, false, 0, 0, 0, false, 0, false⟩

/-- db.GetBoltOptions: when `Enable` is set, build a bolt.Options carrying
only the `ReadOnly` field; otherwise pass nil options to `bolt.Open`. -/
def GetBoltOptions (options : BoltOptions) : Option BoltLibOptions :=
  if options.Enable then some { zeroBoltLibOptions with ReadOnly := options.ReadOnly }
  else none

/-- composer.Branch. -/
structure Branch where
  Versions : List String

/-- composer.RawAdvisory, the YAML shape of one advisory file. -/
structure RawAdvisory where
  Cve : String
  Title : String
  Link : String
  Reference : String
  Branches : List (String × Branch)

/-- One file visited by `filepath.Walk` inside `VulnSrc.walk`: its base name,
whether it is a directory, and the parsed advisory (`none` when reading or
YAML-unmarshalling the file fails). -/
structure AdvisoryFile where
  name : String
  isDir : Bool
  parsed : Option RawAdvisory

/-- vulnerability.PhpSecurityAdvisories, the composer source identifier. -/
def phpSecurityAdvisories : String := "php-security-advisories"

/-- The composer data source constant. -/
def composerSource : DataSource :=
  ⟨"PHP Security Advisories Database", "https://github.com/FriendsOfPHP/security-advisories"⟩

/-- The root bucket of advisory-detail records. -/
def advisoryDetailBucket : String := "advisory-detail"

/-- The root bucket of vulnerability-detail records. -/
def vulnerabilityDetailBucket : String := "vulnerability-detail"

/-- The root bucket of the vulnerability-ID optimization index. -/
def vulnerabilityIDBucket : String := "vulnerability-id"

/-- Modelled from the spec: the body of `Config.PutDataSource` is not under
src/ (only its declaration and call sites are). Per the spec, DataSource
metadata is stored under the reserved metadata bucket, one record per root
bucket, keyed by the root bucket name. -/
def Config.PutDataSource (tx : DB) (bktName : String) (src : DataSource) :
    Except String DB :=
  Config.put tx [dataSourceBucket] bktName (encodeDataSource src)

/-- Modelled from the spec: the body of `Config.PutAdvisoryDetail` is not
under src/ (only its declaration and call site are). Per the spec, an advisory
record is an opaque payload stored under a bucket chain in the advisory-detail
namespace derived from the vulnerability ID and the nested bucket name, keyed
per source. The composer call site passes the source identifier as `pkgName`
and the advisory's package reference as the nested bucket name. -/
def Config.PutAdvisoryDetail (tx : DB) (vulnerabilityID pkgName nestedBkt : String)
    (advisory : Bytes) : Except String DB :=
  Config.put tx [advisoryDetailBucket, vulnerabilityID, nestedBkt] pkgName advisory

/-- Modelled from the spec: the body of `Config.PutVulnerabilityDetail` is not
under src/ (only its declaration and call site are). Per the spec, one
vulnerability-detail record exists per (vulnerability, source) pair. -/
def Config.PutVulnerabilityDetail (tx : DB) (vulnerabilityID srcID : String)
    (detail : Bytes) : Except String DB :=
  Config.put tx [vulnerabilityDetailBucket, vulnerabilityID] srcID detail

/-- Modelled from the spec: the body of `Config.PutVulnerabilityID` is not
under src/ (only its declaration and call site are). Per the spec, the
vulnerability-ID index is a write-only marker set of known identifiers. -/
def Config.PutVulnerabilityID (tx : DB) (vulnerabilityID : String) :
    Except String DB :=
  Config.put tx [vulnerabilityIDBucket] vulnerabilityID []

/-- Length-prefixed encoding of a string list (a stand-in for the JSON
encoding of the generic advisory record). -/
def encodeStrList (l : List String) : Bytes :=
  l.length :: l.foldr (fun s acc => encodeStr s ++ acc) []

/-- Serialization of the generic types.Advisory written by composer (only its
VulnerableVersions field is populated). -/
def encodeAdvisory (vulnerableVersions : List String) : Bytes :=
  encodeStrList vulnerableVersions

/-- Serialization of the types.VulnerabilityDetail written by composer (ID,
one reference link, title). -/
def encodeVulnerabilityDetail (id link title : String) : Bytes :=
  encodeStr id ++ encodeStr link ++ encodeStr title

/-- The body of the `filepath.Walk` callback in `VulnSrc.walk` for one file:
skip directories and files not named `CVE-*`; fail the walk when the file
cannot be read or parsed; otherwise derive the vulnerability ID (the explicit
CVE field, falling back to the base name minus ".yaml"), collect the branch
version constraints, and perform the three record writes. -/
def walkFile (tx : DB) (f : AdvisoryFile) : Except String DB :=
  if f.isDir || !(strStarts f.name "CVE-") then .ok tx
  else
    match f.parsed with
    | none => .error "failed to read or unmarshal the advisory file"
    | some adv =>
      let vulnerabilityID := if adv.Cve = "" then trimSuffix f.name ".yaml" else adv.Cve
      let vulnerableVersions := adv.Branches.map (fun b => joinComma b.2.Versions)
      match Config.PutAdvisoryDetail tx vulnerabilityID phpSecurityAdvisories
          adv.Reference (encodeAdvisory vulnerableVersions) with
      | .error e => .error ("failed to save php advisory: " ++ e)
      | .ok tx₁ =>
        match Config.PutVulnerabilityDetail tx₁ vulnerabilityID phpSecurityAdvisories
            (encodeVulnerabilityDetail vulnerabilityID adv.Link adv.Title) with
        | .error e => .error ("failed to save php vulnerability detail: " ++ e)
        | .ok tx₂ =>
          match Config.PutVulnerabilityID tx₂ vulnerabilityID with
          | .error e => .error ("failed to save the vulnerability ID: " ++ e)
          | .ok tx₃ => .ok tx₃

/-- VulnSrc.walk: fold the walk callback over the advisory files in walk
order, stopping at the first failure. -/
def VulnSrc.walk (tx : DB) (files : List AdvisoryFile) : Except String DB :=
  match files with
  | [] => .ok tx
  | f :: rest =>
    match walkFile tx f with
    | .error e => .error e
    | .ok tx' => VulnSrc.walk tx' rest

/-- VulnSrc.update: one ingestion run, submitting the data-source metadata
write and the whole advisory walk as a single BatchUpdate transaction. -/
def VulnSrc.update (db : DB) (files : List AdvisoryFile) : Except String DB :=
  Config.BatchUpdate db (fun tx =>
    match Config.PutDataSource tx phpSecurityAdvisories composerSource with
    | .error e => .error ("failed to put data source: " ++ e)
    | .ok tx₁ =>
      match VulnSrc.walk tx₁ files with
      | .error e => .error ("failed to walk compose advisories: " ++ e)
      | .ok tx₂ => .ok tx₂)

/-- The state visible to readers after one ingestion run: the store commits
the batch only when the whole transaction function succeeds; on failure it
rolls back and the prior state remains visible. -/
def visibleAfter (db : DB) (files : List AdvisoryFile) : DB :=
  match VulnSrc.update db files with
  | .ok d => d
  | .error _ => db

/-- Whether the vulnerability-ID index of a store contains an identifier. -/
def hasVulnID (d : DB) (id : String) : Bool :=
  match alookup d.roots vulnerabilityIDBucket with
  | none => false
  | some b => (alookup b.entries id).isSome

/-- A store with two per-source root buckets sharing the prefix "src::", both
holding key "k" under the nested bucket "adv" with different payloads. -/
def dbW1 : DB :=
  ⟨[("src::a", .mk [] [("adv", .mk [("k", [1])] [])]),
    ("src::b", .mk [] [("adv", .mk [("k", [2])] [])])]⟩

/-- A store with one root bucket "root" holding an empty nested bucket "sub". -/
def dbW2 : DB := ⟨[("root", .mk [] [("sub", .mk [] [])])]⟩

/-- A store with a literal root bucket holding records but no data-source
metadata bucket at all. -/
def dbW3 : DB := ⟨[("GitHub", .mk [] [("adv", .mk [("k", [7])] [])])]⟩

/-- An Init environment in which the first open hits the fatal fault and the
recovery path fully succeeds. -/
def envW : InitEnv := ⟨true, .fatalFault, true, none⟩

/-- An advisory directory containing one CVE file that fails to parse. -/
def badFiles : List AdvisoryFile := [⟨"CVE-2020-0001.yaml", false, none⟩]

/-- An advisory directory containing one well-formed CVE file whose YAML has
an empty `cve` field. -/
def filesW : List AdvisoryFile :=
  [⟨"CVE-2019-12139.yaml", false, some ⟨"", "T", "L", "pkg/ref", []⟩⟩]

/-- The store produced by one successful composer ingestion run over filesW. -/
def dW : DB := (VulnSrc.update emptyDB filesW).toOption.getD emptyDB

/-- A BoltOptions value with every non-ReadOnly option set to a non-default
value and Enable on. -/
def optsAllSet : BoltOptions := ⟨5, true, true, true, false, 1, 1024, 4096, true, 7, true, true⟩

/-- A BoltOptions value agreeing with optsAllSet on Enable and ReadOnly only. -/
def optsPlain : BoltOptions := ⟨0, false, false, false, false, 0, 0, 0, false, 0, false, true⟩

/-- The hit of the LAST element of a list under an option-valued function
(later elements take priority). -/
def lastHit {α β : Type} (f : α → Option β) : List α → Option β
  | [] => none
  | a :: rest => optOr (lastHit f rest) (f a)

/-- The value of the last entry with key `k` in an entry list. -/
def lastVal (es : List (String × Bytes)) (k : String) : Option Bytes :=
  lastHit (fun kv => if kv.1 = k then some kv.2 else none) es

/-- The tagged value that root `r` contributes for key `k` during a scan:
`none` when the root is skipped or does not hold the key. -/
def providedVal (db : DB) (nested : List String) (r k : String) : Option Value :=
  match scanRoot db nested r with
  | none => none
  | some (src, es) => (lastVal es k).map (fun v => Value.mk src v)

/-- A bucket's entry list binds each key at most once (always true of a real
bolt bucket). -/
def nodupKeys (es : List (String × Bytes)) : Prop := (es.map Prod.fst).Nodup

instance (es : List (String × Bytes)) : Decidable (nodupKeys es) := by
  unfold nodupKeys
  infer_instance

theorem alookup_upsert {α : Type} (m : List (String × α)) (k q : String) (v : α) :
    alookup (upsert m k v) q = if k = q then some v else alookup m q := by
  induction m with
  | nil => simp [upsert, alookup]
  | cons kv rest ih =>
    obtain ⟨k', v'⟩ := kv
    by_cases h : k' = k
    · subst h
      by_cases hq : k' = q <;> simp [upsert, alookup, hq]
    · by_cases hq : k' = q
      · have hk : ¬(k = q) := by
          rw [← hq]
          exact fun e => h e.symm
        have hqk : ¬(q = k) := fun e => hk e.symm
        simp [upsert, alookup, h, hq, hk, hqk]
      · simp [upsert, alookup, h, hq, ih]

theorem optOr_none_right {α : Type} (a : Option α) : optOr a none = a := by
  cases a <;> rfl

theorem optOr_assoc {α : Type} (a b c : Option α) :
    optOr (optOr a b) c = optOr a (optOr b c) := by
  cases a <;> cases b <;> rfl

theorem map_optOr {α β : Type} (f : α → β) (a b : Option α) :
    (optOr a b).map f = optOr (a.map f) (b.map f) := by
  cases a <;> rfl

theorem lastHit_append {α β : Type} (f : α → Option β) (l₁ l₂ : List α) :
    lastHit f (l₁ ++ l₂) = optOr (lastHit f l₂) (lastHit f l₁) := by
  induction l₁ with
  | nil => simp [lastHit, optOr_none_right]
  | cons a rest ih => simp [lastHit, ih, optOr_assoc]

theorem lastHit_eq_none {α β : Type} (f : α → Option β) (l : List α)
    (h : ∀ a ∈ l, f a = none) : lastHit f l = none := by
  induction l with
  | nil => rfl
  | cons a rest ih =>
    have h1 : f a = none := h a (List.mem_cons_self a rest)
    have h2 : lastHit f rest = none := ih (fun x hx => h x (List.mem_cons_of_mem a hx))
    simp [lastHit, h1, h2, optOr]

theorem alookup_insertEntries (src : DataSource) (es : List (String × Bytes))
    (acc : List (String × Value)) (k : String) :
    alookup (insertEntries src es acc) k
      = optOr ((lastVal es k).map (fun v => Value.mk src v)) (alookup acc k) := by
  induction es generalizing acc with
  | nil => rfl
  | cons kv rest ih =>
    obtain ⟨k', v'⟩ := kv
    have step : insertEntries src ((k', v') :: rest) acc
        = insertEntries src rest (upsert acc k' ⟨src, v'⟩) := rfl
    rw [step, ih, alookup_upsert]
    by_cases h : k' = k
    · have hl : lastVal ((k', v') :: rest) k = optOr (lastVal rest k) (some v') := by
        simp [lastVal, lastHit, h]
      rw [if_pos h, hl, map_optOr, optOr_assoc]
      cases lastVal rest k <;> rfl
    · have hl : lastVal ((k', v') :: rest) k = lastVal rest k := by
        simp [lastVal, lastHit, h, optOr_none_right]
      rw [if_neg h, hl]

theorem alookup_forEachRoots (db : DB) (nested : List String) (rs : List String)
    (acc : List (String × Value)) (k : String) :
    alookup (forEachRoots db nested rs acc) k
      = optOr (lastHit (fun r => providedVal db nested r k) rs) (alookup acc k) := by
  induction rs generalizing acc with
  | nil => rfl
  | cons r rest ih =>
    cases hs : scanRoot db nested r with
    | none =>
      simp [forEachRoots, hs, ih, lastHit, providedVal, optOr_assoc, optOr_none_right]
    | some p =>
      obtain ⟨src, es⟩ := p
      simp [forEachRoots, hs, ih, alookup_insertEntries, lastHit, providedVal,
        optOr_assoc]

theorem forEach_lookup (db : DB) (nested : List String) (rs : List String) (k : String) :
    alookup (forEachRoots db nested rs []) k
      = lastHit (fun r => providedVal db nested r k) rs := by
  rw [alookup_forEachRoots]
  simp [alookup, optOr_none_right]

theorem lastVal_of_nodup (es : List (String × Bytes)) (k : String)
    (h : nodupKeys es) : lastVal es k = alookup es k := by
  induction es with
  | nil => rfl
  | cons kv rest ih =>
    obtain ⟨k', v'⟩ := kv
    have hpair := List.nodup_cons.mp h
    by_cases hk : k' = k
    · subst hk
      have hnone : lastVal rest k' = none := by
        apply lastHit_eq_none
        intro kv2 hkv2
        have hmem : kv2.1 ∈ rest.map Prod.fst := List.mem_map_of_mem Prod.fst hkv2
        have hne : ¬(kv2.1 = k') := fun e => hpair.1 (e ▸ hmem)
        simp [hne]
      have hl : lastVal ((k', v') :: rest) k' = optOr (lastVal rest k') (some v') := by
        simp [lastVal, lastHit]
      rw [hl, hnone]
      simp [alookup, optOr]
    · have hl : lastVal ((k', v') :: rest) k = lastVal rest k := by
        simp [lastVal, lastHit, hk, optOr_none_right]
      rw [hl, ih hpair.2]
      simp [alookup, hk]

theorem forEachRoots_skip (db : DB) (nested : List String) (l₁ l₂ : List String)
    (r : String) (acc : List (String × Value)) (h : scanRoot db nested r = none) :
    forEachRoots db nested (l₁ ++ r :: l₂) acc = forEachRoots db nested (l₁ ++ l₂) acc := by
  induction l₁ generalizing acc with
  | nil => simp [forEachRoots, h]
  | cons a rest ih =>
    cases hs : scanRoot db nested a <;> simp [forEachRoots, hs, ih]


theorem putPath_entries_mono (b : Bucket) (names : List String) (key : String)
    (val : Bytes) (id : String) (h : (alookup b.entries id).isSome = true) :
    (alookup (b.putPath names key val).entries id).isSome = true := by
  obtain ⟨es, ss⟩ := b
  cases names with
  | nil =>
    simp only [Bucket.putPath, Bucket.entries, alookup_upsert]
    by_cases hk : key = id <;> simp_all [Bucket.entries]
  | cons n rest => simpa [Bucket.putPath, Bucket.entries] using h

theorem hasVulnID_upsert (rs : List (String × Bucket)) (r : String) (rest : List String)
    (key : String) (val : Bytes) (id : String) (h : hasVulnID ⟨rs⟩ id = true) :
    hasVulnID ⟨upsert rs r (((alookup rs r).getD emptyBucket).putPath rest key val)⟩ id
      = true := by
  unfold hasVulnID at h ⊢
  rw [alookup_upsert]
  by_cases hr : r = vulnerabilityIDBucket
  · subst hr
    rw [if_pos rfl]
    cases hb : alookup rs vulnerabilityIDBucket with
    | none => rw [hb] at h; simp at h
    | some b₀ =>
      rw [hb] at h
      simpa using putPath_entries_mono b₀ rest key val id h
  · rw [if_neg hr]
    exact h

theorem hasVulnID_set (rs : List (String × Bucket)) (id : String) (val : Bytes) :
    hasVulnID ⟨upsert rs vulnerabilityIDBucket
      (((alookup rs vulnerabilityIDBucket).getD emptyBucket).putPath [] id val)⟩ id
      = true := by
  unfold hasVulnID
  rw [alookup_upsert, if_pos rfl]
  simp [Bucket.putPath, Bucket.entries, alookup_upsert]

theorem walkFile_preserves_vulnID (tx : DB) (f : AdvisoryFile) (id : String)
    (h : hasVulnID tx id = true) :
    ∀ tx', walkFile tx f = .ok tx' → hasVulnID tx' id = true := by
  intro tx' hw
  by_cases hskip : (f.isDir || !(strStarts f.name "CVE-")) = true
  · rw [walkFile, if_pos hskip] at hw
    cases hw
    exact h
  · rw [walkFile, if_neg hskip] at hw
    cases hp : f.parsed with
    | none => rw [hp] at hw; cases hw
    | some adv =>
      rw [hp] at hw
      simp only [Config.PutAdvisoryDetail, Config.PutVulnerabilityDetail,
        Config.PutVulnerabilityID, Config.put] at hw
      cases hw
      exact hasVulnID_upsert _ _ _ _ _ _ (hasVulnID_upsert _ _ _ _ _ _
        (hasVulnID_upsert _ _ _ _ _ _ h))

theorem walkFile_sets_vulnID (tx : DB) (f : AdvisoryFile) (adv : RawAdvisory)
    (hdir : f.isDir = false) (hpre : strStarts f.name "CVE-" = true)
    (hparse : f.parsed = some adv) :
    ∀ tx', walkFile tx f = .ok tx' →
      hasVulnID tx' (if adv.Cve = "" then trimSuffix f.name ".yaml" else adv.Cve)
        = true := by
  intro tx' hw
  have hskip : (f.isDir || !(strStarts f.name "CVE-")) = false := by
    simp [hdir, hpre]
  rw [walkFile, if_neg (by simp [hskip])] at hw
  rw [hparse] at hw
  simp only [Config.PutAdvisoryDetail, Config.PutVulnerabilityDetail,
    Config.PutVulnerabilityID, Config.put] at hw
  cases hw
  exact hasVulnID_set _ _ _

theorem walk_preserves_vulnID (files : List AdvisoryFile) (id : String) :
    ∀ tx d, hasVulnID tx id = true → VulnSrc.walk tx files = .ok d →
      hasVulnID d id = true := by
  induction files with
  | nil =>
    intro tx d h hw
    rw [VulnSrc.walk] at hw
    cases hw
    exact h
  | cons f rest ih =>
    intro tx d h hw
    cases hwf : walkFile tx f with
    | error e => rw [VulnSrc.walk, hwf] at hw; cases hw
    | ok tx' =>
      rw [VulnSrc.walk, hwf] at hw
      exact ih tx' d (walkFile_preserves_vulnID tx f id h tx' hwf) hw

theorem walk_sets_vulnID (files : List AdvisoryFile) :
    ∀ (f : AdvisoryFile) (adv : RawAdvisory), f ∈ files → f.isDir = false →
      strStarts f.name "CVE-" = true → f.parsed = some adv →
      ∀ tx d, VulnSrc.walk tx files = .ok d →
        hasVulnID d (if adv.Cve = "" then trimSuffix f.name ".yaml" else adv.Cve)
          = true := by
  induction files with
  | nil => intro f adv hmem; cases hmem
  | cons f₀ rest ih =>
    intro f adv hmem hdir hpre hparse tx d hw
    cases hwf : walkFile tx f₀ with
    | error e => rw [VulnSrc.walk, hwf] at hw; cases hw
    | ok tx' =>
      rw [VulnSrc.walk, hwf] at hw
      rcases List.mem_cons.mp hmem with rfl | hmem'
      · exact walk_preserves_vulnID rest _ tx' d
          (walkFile_sets_vulnID tx f adv hdir hpre hparse tx' hwf) hw
      · exact ih f adv hmem' hdir hpre hparse tx' d hw

theorem walk_error_of_bad_file (files : List AdvisoryFile)
    (h : ∃ f ∈ files, f.isDir = false ∧ strStarts f.name "CVE-" = true
      ∧ f.parsed = none) :
    ∀ tx, ∃ e, VulnSrc.walk tx files = .error e := by
  induction files with
  | nil =>
    rcases h with ⟨f, hf, _⟩
    cases hf
  | cons f₀ rest ih =>
    intro tx
    rcases h with ⟨f, hf, hdir, hpre, hparse⟩
    rcases List.mem_cons.mp hf with rfl | hmem
    · have hwf : walkFile tx f = .error "failed to read or unmarshal the advisory file" := by
        rw [walkFile, if_neg (by simp [hdir, hpre]), hparse]
      exact ⟨_, by rw [VulnSrc.walk, hwf]⟩
    · cases hwf : walkFile tx f₀ with
      | error e => exact ⟨e, by rw [VulnSrc.walk, hwf]⟩
      | ok tx' =>
        rcases ih ⟨f, hmem, hdir, hpre, hparse⟩ tx' with ⟨e, he⟩
        exact ⟨e, by rw [VulnSrc.walk, hwf]; exact he⟩

/-- Claim C1: for every bucket-chain spec of length at least 2 whose root spec
contains the reserved delimiter "::", forEach scans all top-level buckets
whose names share that prefix, and when matched roots contain the same key
under the nested chain, the result map holds exactly the value of the last
matched root in iteration order that provides the key — not a merge. -/
theorem forEach_prefix_last_write_wins
    (db : DB) (rootSpec n₁ : String) (ns : List String) (l₁ l₂ : List String)
    (r k : String) (src : DataSource) (es : List (String × Bytes)) (v : Bytes)
    (hdelim : strContainsSub rootSpec reservedDelim = true)
    (hsplit : matchedRoots db rootSpec = l₁ ++ r :: l₂)
    (hscan : scanRoot db (n₁ :: ns) r = some (src, es))
    (hnd : nodupKeys es) (hk : alookup es k = some v)
    (hl₂ : ∀ r' ∈ l₂, providedVal db (n₁ :: ns) r' k = none) :
    matchedRoots db rootSpec
        = (db.roots.filter (fun p => strStarts p.1 rootSpec)).map Prod.fst
      ∧ ∃ res, Config.forEach db (rootSpec :: n₁ :: ns) = .ok res
          ∧ alookup res k = some ⟨src, v⟩ := by
  constructor
  · simp [matchedRoots, hdelim]
  · refine ⟨forEachRoots db (n₁ :: ns) (matchedRoots db rootSpec) [], rfl, ?_⟩
    rw [forEach_lookup, hsplit, lastHit_append]
    have h2 : lastHit (fun r' => providedVal db (n₁ :: ns) r' k) l₂ = none :=
      lastHit_eq_none _ _ hl₂
    have hr : providedVal db (n₁ :: ns) r k = some ⟨src, v⟩ := by
      simp [providedVal, hscan, lastVal_of_nodup es k hnd, hk]
    simp [lastHit, h2, hr, optOr]

theorem forEach_prefix_last_write_wins_witness :
    matchedRoots dbW1 "src::"
        = (dbW1.roots.filter (fun p => strStarts p.1 "src::")).map Prod.fst
      ∧ ∃ res, Config.forEach dbW1 ["src::", "adv"] = .ok res
          ∧ alookup res "k" = some ⟨zeroDataSource, [2]⟩ :=
  forEach_prefix_last_write_wins dbW1 "src::" "adv" [] ["src::a"] []
    "src::b" "k" zeroDataSource [("k", [2])] [2]
    rfl rfl rfl (by decide) rfl (fun r' h => nomatch h)

/-- Claim C2: for every non-empty bucket chain and key, a missing bucket or
absent key makes get return an empty result with no error; and a matched root
whose nested path does not fully exist is silently excluded from a forEach
scan, which never fails. -/
theorem missing_is_empty :
    (∀ (db : DB) (r : String) (rest : List String) (key : String),
        resolvePath db (r :: rest) = none → Config.get db (r :: rest) key = .ok none)
    ∧ (∀ (db : DB) (r : String) (rest : List String) (key : String) (b : Bucket),
        resolvePath db (r :: rest) = some b → alookup b.entries key = none →
          Config.get db (r :: rest) key = .ok (some []))
    ∧ (∀ (db : DB) (nested l₁ l₂ : List String) (r : String)
        (acc : List (String × Value)), scanRoot db nested r = none →
          forEachRoots db nested (l₁ ++ r :: l₂) acc
            = forEachRoots db nested (l₁ ++ l₂) acc)
    ∧ (∀ (db : DB) (rootSpec n₁ : String) (ns : List String),
        ∃ res, Config.forEach db (rootSpec :: n₁ :: ns) = .ok res) := by
  refine ⟨?_, ?_, ?_, ?_⟩
  · intro db r rest key h
    cases hr : alookup db.roots r with
    | none => simp [Config.get, hr]
    | some root =>
      have hp : root.getPath rest = none := by simpa [resolvePath, hr] using h
      simp [Config.get, hr, hp]
  · intro db r rest key b hres hkey
    cases hr : alookup db.roots r with
    | none => simp [resolvePath, hr] at hres
    | some root =>
      have hp : root.getPath rest = some b := by simpa [resolvePath, hr] using hres
      simp [Config.get, hr, hp, hkey]
  · intro db nested l₁ l₂ r acc h
    exact forEachRoots_skip db nested l₁ l₂ r acc h
  · intro db rootSpec n₁ ns
    exact ⟨_, rfl⟩

theorem missing_is_empty_witness :
    Config.get emptyDB ["a"] "k" = .ok none
    ∧ Config.get dbW2 ["root", "sub"] "absent" = .ok (some [])
    ∧ forEachRoots dbW2 ["nosub"] (["root"] ++ "gone" :: []) []
        = forEachRoots dbW2 ["nosub"] (["root"] ++ []) []
    ∧ ∃ res, Config.forEach emptyDB ["a", "b"] = .ok res :=
  ⟨missing_is_empty.1 emptyDB "a" [] "k" rfl,
   missing_is_empty.2.1 dbW2 "root" ["sub"] "absent" (.mk [] []) rfl rfl,
   missing_is_empty.2.2.1 dbW2 ["nosub"] ["root"] [] "gone" [] rfl,
   missing_is_empty.2.2.2 emptyDB "a" "b" []⟩

/-- Claim C5: calling put or get with an empty bucket-name list returns a hard
error, never an empty-data result. -/
theorem empty_bucket_chain_error (db : DB) (key : String) (v : Bytes) :
    (∃ e, Config.put db [] key v = .error e)
    ∧ ∃ e, Config.get db [] key = .error e :=
  ⟨⟨"empty bucket name", rfl⟩,
   ⟨"failed to get data from db: empty bucket name", rfl⟩⟩

/-- Claim C6: forEach on a bucket-chain spec of length 0 or 1 returns an error
(the Except error case carries no result map, matching Go's nil map). -/
theorem forEach_requires_nested_chain (db : DB) (names : List String)
    (h : names.length < 2) : ∃ e, Config.forEach db names = .error e := by
  cases names with
  | nil => exact ⟨"bucket must be nested", rfl⟩
  | cons x rest =>
    cases rest with
    | nil => exact ⟨"bucket must be nested", rfl⟩
    | cons y rest2 =>
      exfalso
      simp [List.length_cons] at h
      omega

theorem forEach_requires_nested_chain_witness :
    ∃ e, Config.forEach emptyDB ["a"] = .error e :=
  forEach_requires_nested_chain emptyDB ["a"] (by decide)

/-- Claim C7: a failing DataSource lookup for a matched root is never fatal to
a forEach scan — the scan still succeeds, the root's records appear in the
result, and they carry the zero-value (unknown) provenance. -/
theorem provenance_failure_not_fatal
    (db : DB) (rootSpec n₁ : String) (ns : List String) (l₁ l₂ : List String)
    (r k : String) (root bkt : Bucket) (v : Bytes) (e : String)
    (hsplit : matchedRoots db rootSpec = l₁ ++ r :: l₂)
    (hroot : alookup db.roots r = some root)
    (hds : Config.getDataSource db r = .error e)
    (hpath : root.getPath (n₁ :: ns) = some bkt)
    (hnd : nodupKeys bkt.entries) (hk : alookup bkt.entries k = some v)
    (hl₂ : ∀ r' ∈ l₂, providedVal db (n₁ :: ns) r' k = none) :
    ∃ res, Config.forEach db (rootSpec :: n₁ :: ns) = .ok res
      ∧ alookup res k = some ⟨zeroDataSource, v⟩ := by
  have hscan : scanRoot db (n₁ :: ns) r = some (zeroDataSource, bkt.entries) := by
    simp [scanRoot, hroot, hds, hpath]
  refine ⟨forEachRoots db (n₁ :: ns) (matchedRoots db rootSpec) [], rfl, ?_⟩
  rw [forEach_lookup, hsplit, lastHit_append]
  have h2 : lastHit (fun r' => providedVal db (n₁ :: ns) r' k) l₂ = none :=
    lastHit_eq_none _ _ hl₂
  have hr : providedVal db (n₁ :: ns) r k = some ⟨zeroDataSource, v⟩ := by
    simp [providedVal, hscan, lastVal_of_nodup _ _ hnd, hk]
  simp [lastHit, h2, hr, optOr]

theorem provenance_failure_not_fatal_witness :
    ∃ res, Config.forEach dbW3 ["GitHub", "adv"] = .ok res
      ∧ alookup res "k" = some ⟨zeroDataSource, [7]⟩ :=
  provenance_failure_not_fatal dbW3 "GitHub" "adv" [] [] []
    "GitHub" "k" (.mk [] [("adv", .mk [("k", [7])] [])]) (.mk [("k", [7])] [])
    [7] "data source bucket is missing"
    rfl rfl rfl rfl (by decide) rfl (fun r' h => nomatch h)

/-- Claim C10: on a successful get over a non-empty chain, the result is nil
exactly when some bucket of the chain is missing; when the whole chain exists
the result is a non-nil (possibly empty) copy of the stored value, so the two
missing cases are observably different. -/
theorem get_nil_vs_empty (db : DB) (r : String) (rest : List String) (key : String) :
    (Config.get db (r :: rest) key = .ok none ↔ resolvePath db (r :: rest) = none)
    ∧ (∀ b, resolvePath db (r :: rest) = some b →
        Config.get db (r :: rest) key = .ok (some ((alookup b.entries key).getD []))) := by
  constructor
  · cases hr : alookup db.roots r with
    | none => simp [Config.get, resolvePath, hr]
    | some root =>
      cases hp : root.getPath rest with
      | none => simp [Config.get, resolvePath, hr, hp]
      | some bkt => simp [Config.get, resolvePath, hr, hp]
  · intro b hres
    cases hr : alookup db.roots r with
    | none => simp [resolvePath, hr] at hres
    | some root =>
      have hp : root.getPath rest = some b := by simpa [resolvePath, hr] using hres
      simp [Config.get, hr, hp]

theorem get_nil_vs_empty_witness :
    (Config.get dbW2 ["missing"] "k" = .ok none
      ↔ resolvePath dbW2 ["missing"] = none)
    ∧ Config.get dbW2 ["root", "sub"] "absent"
        = .ok (some ((alookup (Bucket.mk [] []).entries "absent").getD [])) :=
  ⟨(get_nil_vs_empty dbW2 "missing" [] "k").1,
   (get_nil_vs_empty dbW2 "root" ["sub"] "absent").2 (.mk [] []) rfl⟩

/-- Claim C3: when the open during Init hits the fatal fault, the store file
is deleted and a fresh, empty store is opened in its place; Init fails only
when the delete-and-recreate itself fails, and on success the handle holds an
empty store (no salvage of old data). -/
theorem init_corruption_recovery (env : InitEnv)
    (hmk : env.mkdirOk = true) (hf : env.firstOpen = .fatalFault) :
    ((Init env).initErr = none ↔ env.removeOk = true ∧ env.reopenErr = none)
    ∧ (env.removeOk = true → (Init env).fileRemoved = true)
    ∧ ((Init env).initErr = none → (Init env).handle = some emptyDB) := by
  cases hrm : env.removeOk <;> cases hre : env.reopenErr <;>
    simp [Init, hmk, hf, hrm, hre]

theorem init_corruption_recovery_witness :
    ((Init envW).initErr = none ↔ envW.removeOk = true ∧ envW.reopenErr = none)
    ∧ (envW.removeOk = true → (Init envW).fileRemoved = true)
    ∧ ((Init envW).initErr = none → (Init envW).handle = some emptyDB) :=
  init_corruption_recovery envW rfl rfl

/-- Claim C4: one composer ingestion run submits the data-source write and the
whole advisory walk as a single batch transaction: when any walked CVE file
fails to parse, the run returns an error and the state visible to readers is
the unchanged prior store — none of the run's writes become visible. -/
theorem update_single_batch_atomic (db : DB) (files : List AdvisoryFile)
    (h : ∃ f ∈ files, f.isDir = false ∧ strStarts f.name "CVE-" = true
      ∧ f.parsed = none) :
    (∃ e, VulnSrc.update db files = .error e) ∧ visibleAfter db files = db := by
  obtain ⟨tx₁, htx⟩ :
      ∃ t, Config.PutDataSource db phpSecurityAdvisories composerSource = .ok t :=
    ⟨_, rfl⟩
  obtain ⟨e, he⟩ := walk_error_of_bad_file files h tx₁
  have hu : VulnSrc.update db files
      = .error ("error in batch update: " ++ ("failed to walk compose advisories: " ++ e)) := by
    simp [VulnSrc.update, Config.BatchUpdate, htx, he]
  exact ⟨⟨_, hu⟩, by simp [visibleAfter, hu]⟩

theorem update_single_batch_atomic_witness :
    (∃ e, VulnSrc.update emptyDB badFiles = .error e)
    ∧ visibleAfter emptyDB badFiles = emptyDB :=
  update_single_batch_atomic emptyDB badFiles
    ⟨⟨"CVE-2020-0001.yaml", false, none⟩, by simp [badFiles], rfl, rfl, rfl⟩

/-- Claim C8 counterexample: a BoltOptions value with Enable set and every
non-ReadOnly option set to a non-default value, yet the options handed to
bolt.Open carry the defaults for all of them — the claim that every
configuration option takes effect on the opened store is false. -/
theorem bolt_options_claim_counterexample :
    optsAllSet.NoSync = true ∧ optsAllSet.Timeout = 5 ∧ optsAllSet.Mlock = true
    ∧ optsAllSet.NoFreelistSync = true ∧ optsAllSet.PreLoadFreelist = true
    ∧ optsAllSet.InitialMmapSize = 1024 ∧ optsAllSet.PageSize = 4096
    ∧ optsAllSet.OpenFile = 7
    ∧ (GetBoltOptions optsAllSet).map (fun o => o.NoSync) = some false
    ∧ (GetBoltOptions optsAllSet).map (fun o => o.Timeout) = some 0
    ∧ (GetBoltOptions optsAllSet).map (fun o => o.Mlock) = some false
    ∧ (GetBoltOptions optsAllSet).map (fun o => o.NoFreelistSync) = some false
    ∧ (GetBoltOptions optsAllSet).map (fun o => o.PreLoadFreelist) = some false
    ∧ (GetBoltOptions optsAllSet).map (fun o => o.InitialMmapSize) = some 0
    ∧ (GetBoltOptions optsAllSet).map (fun o => o.PageSize) = some 0
    ∧ (GetBoltOptions optsAllSet).map (fun o => o.OpenFile) = some 0 := by
  decide

/-- Claim C8 amended: of all the declared configuration options, only
read-only mode reaches the opened store, and only when Enable is set; with
Enable unset, nil options (all store defaults) are used; any two option values
agreeing on Enable and ReadOnly produce identical open options. -/
theorem bolt_options_only_readonly (o o' : BoltOptions) :
    GetBoltOptions o
        = (if o.Enable then some { zeroBoltLibOptions with ReadOnly := o.ReadOnly }
           else none)
    ∧ (o.Enable = true →
        (GetBoltOptions o).map (fun x => x.ReadOnly) = some o.ReadOnly)
    ∧ (o.Enable = o'.Enable → o.ReadOnly = o'.ReadOnly →
        GetBoltOptions o = GetBoltOptions o') := by
  refine ⟨rfl, ?_, ?_⟩
  · intro he
    simp [GetBoltOptions, he]
  · intro h1 h2
    simp [GetBoltOptions, h1, h2]

theorem bolt_options_only_readonly_witness :
    (GetBoltOptions optsAllSet).map (fun x => x.ReadOnly) = some optsAllSet.ReadOnly
    ∧ GetBoltOptions optsAllSet = GetBoltOptions optsPlain :=
  ⟨(bolt_options_only_readonly optsAllSet optsAllSet).2.1 rfl,
   (bolt_options_only_readonly optsAllSet optsPlain).2.2 rfl rfl⟩

/-- Claim C9: for every composer advisory file processed by a successful walk,
the stored vulnerability identifier is the advisory's explicit CVE field when
non-empty, otherwise the file's base name with the ".yaml" suffix removed. -/
theorem walk_vulnerability_id_choice (db d : DB) (files : List AdvisoryFile)
    (f : AdvisoryFile) (adv : RawAdvisory)
    (hupd : VulnSrc.update db files = .ok d)
    (hmem : f ∈ files) (hdir : f.isDir = false)
    (hpre : strStarts f.name "CVE-" = true) (hparse : f.parsed = some adv) :
    hasVulnID d (if adv.Cve = "" then trimSuffix f.name ".yaml" else adv.Cve)
      = true := by
  obtain ⟨tx₁, htx⟩ :
      ∃ t, Config.PutDataSource db phpSecurityAdvisories composerSource = .ok t :=
    ⟨_, rfl⟩
  have hwalk : VulnSrc.walk tx₁ files = .ok d := by
    cases hww : VulnSrc.walk tx₁ files with
    | error e => simp [VulnSrc.update, Config.BatchUpdate, htx, hww] at hupd
    | ok d' =>
      have hdd : d' = d := by
        simpa [VulnSrc.update, Config.BatchUpdate, htx, hww] using hupd
      rw [hdd]
  exact walk_sets_vulnID files f adv hmem hdir hpre hparse tx₁ d hwalk

theorem walk_vulnerability_id_choice_witness :
    hasVulnID dW
      (if ("" : String) = "" then trimSuffix "CVE-2019-12139.yaml" ".yaml" else "")
      = true :=
  walk_vulnerability_id_choice emptyDB dW filesW
    ⟨"CVE-2019-12139.yaml", false, some ⟨"", "T", "L", "pkg/ref", []⟩⟩
    ⟨"", "T", "L", "pkg/ref", []⟩
    rfl (by simp [filesW]) rfl rfl rfl
